import Mathlib

/-!
# Conversation Orchestrator of `ask-my-github` — shallow embedding

This file embeds the state and the two user-intent operations of the
chat front end (`App.tsx` together with the input component
`ChatInput.tsx`) and proves the specified properties about them.

The embedding follows the source:

* `Message`, `Chunk`, `Sender` mirror the interfaces of
  `frontend/src/types/index.ts` (a `Message`'s `id` is
  `Date.now().toString()`, its `timestamp` the clock value itself; both are
  supplied here as an explicit `Nat` parameter standing for `Date.now()`).
* `App.addMessage`, `App.handleSendMessage`, `App.handleIndexRepository`
  mirror the handlers of `App.tsx`.  The remote call made by a handler is
  modelled by a `RemoteRequest` value the handler emits, and the outcome of
  the awaited call (`try`/`catch`) by an explicit outcome parameter.  Each
  handler is split into a `...Start` phase (everything before the `await`)
  and a `...Finish` phase (everything after), composed into the whole
  handler, so that the in-flight intermediate state is a first-class value.
* `submitQuestion` / `requestIndexing` are the user intents as deliverable
  through `ChatInput.tsx`: an intent reaches the `App` handlers only when
  the corresponding control is enabled.  The send paths (Send button /
  Enter in the question input) are blocked while `isProcessing` is true
  (`isLoading={isProcessing}` on the button, `isDisabled={isProcessing}`
  on the input) and the component handler additionally requires
  `message.trim()` and `repoUrl.trim()` to be non-empty; the Index button
  is likewise blocked while `isProcessing` and `handleIndexClick` requires
  `repoUrl.trim()` non-empty.
-/

/-- A retrieved context chunk, `frontend/src/types/index.ts`. -/
structure Chunk where
  text : String
  file_path : String
deriving DecidableEq

/-- The author of a transcript entry (`sender: 'user' | 'bot'`). -/
inductive Sender where
  | user : Sender
  | bot : Sender
deriving DecidableEq

/-- One transcript entry, `Message` of `frontend/src/types/index.ts`.
`id` is produced as `Date.now().toString()` and `timestamp` as the clock
value at creation. -/
structure Message where
  id : String
  content : String
  sender : Sender
  timestamp : Nat
  chunks : Option (List Chunk)
deriving DecidableEq

/-- A request issued to the remote service
(`frontend/src/services/api.ts`): either `POST /api/query` with
`{question, repo_url, top_k}` or `POST /api/index` with `{repo_url}`. -/
inductive RemoteRequest where
  | query (question : String) (repo_url : String) (top_k : Nat) : RemoteRequest
  | index (repo_url : String) : RemoteRequest
deriving DecidableEq

/-- Outcome of the awaited `api.queryRepository` call: a response
`{answer, chunks}`, or any error (network failure, non-success status,
malformed body) caught by the `catch` block. -/
inductive QueryOutcome where
  | success (answer : String) (chunks : List Chunk) : QueryOutcome
  | failure : QueryOutcome
deriving DecidableEq

/-- Outcome of the awaited `api.indexRepository` call. -/
inductive IndexOutcome where
  | success : IndexOutcome
  | failure : IndexOutcome
deriving DecidableEq

namespace App

/-- The state held by the `App` component: `messages` and `isProcessing`
(`useState` at the top of `App.tsx`). -/
structure AppState where
  messages : List Message
  isProcessing : Bool
deriving DecidableEq

/-- Function `addMessage` of `App.tsx`: builds the full `Message` from the partial
one, with `id = Date.now().toString()` and the creation timestamp, and
appends it (`setMessages((prev) => [...prev, newMessage])`).  `now` stands
for the value of `Date.now()` at the call. -/
def addMessage (msgs : List Message) (content : String) (sender : Sender)
    (chunks : Option (List Chunk)) (now : Nat) : List Message :=
  msgs ++ [{ id := toString now, content := content, sender := sender,
             timestamp := now, chunks := chunks }]

/-- The fallback content appended by `handleSendMessage`'s `catch` block. -/
def queryFailureContent : String :=
  "Sorry, I encountered an error processing your request."

/-- The content appended by `handleIndexRepository` on success:
`` `Successfully indexed repository: ${repoUrl}` ``. -/
def indexSuccessContent (repoUrl : String) : String :=
  "Successfully indexed repository: " ++ repoUrl

/-- The fixed content appended by `handleIndexRepository`'s `catch`
block. -/
def indexFailureContent : String :=
  "Failed to index repository. Please check the URL and try again."

/-- Handler `handleSendMessage` of `App.tsx` up to the `await`: append the user
message, set `isProcessing` to `true`, and issue the query request
`{question: content, repo_url: repoUrl, top_k: 3}`.  `t1` is `Date.now()`
at the user-message append. -/
def handleSendMessageStart (st : AppState) (content repoUrl : String)
    (t1 : Nat) : AppState × RemoteRequest :=
  ({ messages := addMessage st.messages content .user none t1,
     isProcessing := true },
   .query content repoUrl 3)

/-- Handler `handleSendMessage` of `App.tsx` after the `await`: on success append
the bot message carrying `response.answer` and `response.chunks`, on any
caught error append the fixed fallback bot message; in both cases the
`finally` block sets `isProcessing` to `false`.  `t2` is `Date.now()` at
the bot-message append. -/
def handleSendMessageFinish (st : AppState) (outcome : QueryOutcome)
    (t2 : Nat) : AppState :=
  match outcome with
  | .success answer chunks =>
      { messages := addMessage st.messages answer .bot (some chunks) t2,
        isProcessing := false }
  | .failure =>
      { messages := addMessage st.messages queryFailureContent .bot none t2,
        isProcessing := false }

/-- The whole `handleSendMessage` of `App.tsx`; it returns the final state
and the list of remote requests issued.  Note that the handler itself
performs no validation and no busy check. -/
def handleSendMessage (st : AppState) (content repoUrl : String)
    (outcome : QueryOutcome) (t1 t2 : Nat) : AppState × List RemoteRequest :=
  let started := handleSendMessageStart st content repoUrl t1
  (handleSendMessageFinish started.1 outcome t2, [started.2])

/-- Handler `handleIndexRepository` of `App.tsx` up to the `await`: the
`if (!repoUrl) return;` guard (JS falsiness of a string is emptiness),
then set `isProcessing` to `true` and issue `{repo_url: repoUrl}`. -/
def handleIndexRepositoryStart (st : AppState) (repoUrl : String) :
    AppState × Option RemoteRequest :=
  if repoUrl = "" then (st, none)
  else ({ st with isProcessing := true }, some (.index repoUrl))

/-- Handler `handleIndexRepository` of `App.tsx` after the `await`: append the
success confirmation or the fixed failure message; the `finally` block
sets `isProcessing` to `false`.  `t` is `Date.now()` at the append. -/
def handleIndexRepositoryFinish (st : AppState) (repoUrl : String)
    (outcome : IndexOutcome) (t : Nat) : AppState :=
  match outcome with
  | .success =>
      { messages := addMessage st.messages (indexSuccessContent repoUrl) .bot none t,
        isProcessing := false }
  | .failure =>
      { messages := addMessage st.messages indexFailureContent .bot none t,
        isProcessing := false }

/-- The whole `handleIndexRepository` of `App.tsx`. -/
def handleIndexRepository (st : AppState) (repoUrl : String)
    (outcome : IndexOutcome) (t : Nat) : AppState × List RemoteRequest :=
  match handleIndexRepositoryStart st repoUrl with
  | (st1, none) => (st1, [])
  | (st1, some req) => (handleIndexRepositoryFinish st1 repoUrl outcome t, [req])

end App

open App

/-- The characters removed by JavaScript `String.prototype.trim()`:
ECMAScript WhiteSpace — TAB U+0009, VT U+000B, FF U+000C, SP U+0020,
NBSP U+00A0, ZWNBSP U+FEFF and the Space_Separator category (U+1680,
U+2000..U+200A, U+202F, U+205F, U+3000) — together with the
LineTerminators LF U+000A, CR U+000D, LS U+2028 and PS U+2029. -/
def jsWhitespace (c : Char) : Bool :=
  c.val == 0x09 || c.val == 0x0A || c.val == 0x0B || c.val == 0x0C ||
  c.val == 0x0D || c.val == 0x20 || c.val == 0xA0 || c.val == 0x1680 ||
  (decide (0x2000 ≤ c.val) && decide (c.val ≤ 0x200A)) ||
  c.val == 0x2028 || c.val == 0x2029 || c.val == 0x202F || c.val == 0x205F ||
  c.val == 0x3000 || c.val == 0xFEFF

/-- Executable embedding of JavaScript `String.prototype.trim()`: drop
ECMAScript whitespace from both ends. -/
def jsTrim (s : String) : String :=
  ⟨((s.data.dropWhile jsWhitespace).reverse.dropWhile jsWhitespace).reverse⟩

/-- The state of the whole front end: `ChatInput`'s `message` and
`repoUrl` fields together with the `App` state. -/
structure SysState where
  message : String
  repoUrl : String
  app : AppState
deriving DecidableEq

/-- The initial state: empty transcript, not processing, empty input
fields (`useState('')`, `useState<Message[]>([])`, `useState(false)`). -/
def initState : SysState :=
  { message := "", repoUrl := "", app := { messages := [], isProcessing := false } }

/-- The `submitQuestion` intent: a send event (Send click or Enter in the
question input) as deliverable through `ChatInput.tsx`.  While
`isProcessing` is true both send paths are disabled
(`isLoading={isProcessing}` / `isDisabled={isProcessing}`), so the event
leaves the state unchanged; otherwise `ChatInput.handleSendMessage` runs:
if `message.trim()` and `repoUrl.trim()` are both non-empty it calls
`onSendMessage(message, repoUrl)` (the untrimmed values) and then clears
only the question field (`setMessage('')`). -/
def submitQuestion (st : SysState) (outcome : QueryOutcome)
    (t1 t2 : Nat) : SysState × List RemoteRequest :=
  if st.app.isProcessing then (st, [])
  else if jsTrim st.message ≠ "" ∧ jsTrim st.repoUrl ≠ "" then
    let handled := handleSendMessage st.app st.message st.repoUrl outcome t1 t2
    ({ st with message := "", app := handled.1 }, handled.2)
  else (st, [])

/-- The `requestIndexing` intent: an Index click as deliverable through
`ChatInput.tsx`.  The Index button is disabled while `isProcessing`
(`isLoading={isProcessing}`); otherwise `handleIndexClick` runs: if
`repoUrl.trim()` is non-empty it calls `onIndexRepository(repoUrl)` (the
untrimmed value) and changes no input field. -/
def requestIndexing (st : SysState) (outcome : IndexOutcome)
    (t : Nat) : SysState × List RemoteRequest :=
  if st.app.isProcessing then (st, [])
  else if jsTrim st.repoUrl ≠ "" then
    let handled := handleIndexRepository st.app st.repoUrl outcome t
    ({ st with app := handled.1 }, handled.2)
  else (st, [])

/-- Editing the question field (`onChange` of the question input); the
input is disabled while `isProcessing` or while `repoUrl.trim()` is
empty (`isDisabled={isProcessing || !isRepoUrlValid}`). -/
def typeMessage (st : SysState) (s : String) : SysState :=
  if st.app.isProcessing then st
  else if jsTrim st.repoUrl = "" then st
  else { st with message := s }

/-- Editing the repository-URL field (`onChange` of the URL input); the
input is disabled while `isProcessing`. -/
def typeRepoUrl (st : SysState) (s : String) : SysState :=
  if st.app.isProcessing then st
  else { st with repoUrl := s }

/-- Acceptance condition of `submitQuestion`: not busy and both trimmed
inputs non-empty. -/
def askAccepted (st : SysState) : Prop :=
  st.app.isProcessing = false ∧ jsTrim st.message ≠ "" ∧ jsTrim st.repoUrl ≠ ""

/-- Acceptance condition of `requestIndexing`: not busy and the trimmed
URL non-empty. -/
def indexAccepted (st : SysState) : Prop :=
  st.app.isProcessing = false ∧ jsTrim st.repoUrl ≠ ""

instance (st : SysState) : Decidable (askAccepted st) := by
  unfold askAccepted; infer_instance

instance (st : SysState) : Decidable (indexAccepted st) := by
  unfold indexAccepted; infer_instance

/-- A user-interface event: one of the two intents (with the outcome of
its remote call and the clock values at its appends) or an edit of one of
the two input fields. -/
inductive Intent where
  | ask (outcome : QueryOutcome) (t1 t2 : Nat) : Intent
  | index (outcome : IndexOutcome) (t : Nat) : Intent
  | typeMsg (s : String) : Intent
  | typeUrl (s : String) : Intent
deriving DecidableEq

/-- Applying one event to the state. -/
def stepIntent (st : SysState) : Intent → SysState
  | .ask o t1 t2 => (submitQuestion st o t1 t2).1
  | .index o t => (requestIndexing st o t).1
  | .typeMsg s => typeMessage st s
  | .typeUrl s => typeRepoUrl st s

/-- Running a sequence of events. -/
def run (st : SysState) : List Intent → SysState
  | [] => st
  | i :: is => run (stepIntent st i) is

/-- Number of Turns one event appends: 2 for an accepted `submitQuestion`,
1 for an accepted `requestIndexing`, 0 otherwise. -/
def intentWeight (st : SysState) : Intent → Nat
  | .ask _ _ _ => if askAccepted st then 2 else 0
  | .index _ _ => if indexAccepted st then 1 else 0
  | .typeMsg _ => 0
  | .typeUrl _ => 0

/-- Total number of Turns a sequence of events appends. -/
def runWeight (st : SysState) : List Intent → Nat
  | [] => 0
  | i :: is => intentWeight st i + runWeight (stepIntent st i) is

/-- The clock values an event reads. -/
def Intent.times : Intent → List Nat
  | .ask _ t1 t2 => [t1, t2]
  | .index _ t => [t]
  | .typeMsg _ => []
  | .typeUrl _ => []

/-- The clock values a sequence of events reads. -/
def runTimes : List Intent → List Nat
  | [] => []
  | i :: is => i.times ++ runTimes is

/-- The state reached by an accepted `submitQuestion` both of whose
`Date.now()` readings fall in the same millisecond (clock value 5): the
user Turn and the assistant Turn are created in the same tick. -/
def sameTickFinal : SysState :=
  (submitQuestion
    { message := "q", repoUrl := "https://github.com/x/y",
      app := { messages := [], isProcessing := false } }
    (.success "a" []) 5 5).1

/-- Inverse of `Nat.digitChar` on decimal digits. -/
def digitVal (c : Char) : Nat :=
  if c = '0' then 0 else if c = '1' then 1 else if c = '2' then 2
  else if c = '3' then 3 else if c = '4' then 4 else if c = '5' then 5
  else if c = '6' then 6 else if c = '7' then 7 else if c = '8' then 8
  else if c = '9' then 9 else 10

/-- Decimal value of a most-significant-first digit list. -/
def decVal (l : List Char) : Nat :=
  l.foldl (fun a c => 10 * a + digitVal c) 0

/-- A concrete ready state: not busy, both inputs valid (the question
keeps its surrounding whitespace). -/
def readyState : SysState :=
  { message := " What does main do? ", repoUrl := "https://github.com/x/y",
    app := { messages := [], isProcessing := false } }

/-- A concrete busy state: an operation is in flight. -/
def busyState : SysState :=
  { message := "q", repoUrl := "https://github.com/x/y",
    app := { messages := [], isProcessing := true } }

/-- A concrete state whose inputs are whitespace-only in the ECMAScript
sense: the question holds a vertical tab and a no-break space, the URL a
tab, all of which `trim()` removes. -/
def blankState : SysState :=
  { message := " \u000B\u00A0 ", repoUrl := " \t ",
    app := { messages := [], isProcessing := false } }

/-- A concrete state for the plain indexing scenario: not busy, the URL
valid, the question field blank. -/
def indexOnlyState : SysState :=
  { message := "", repoUrl := "https://github.com/x/y",
    app := { messages := [], isProcessing := false } }

/-- C1: an intent arriving while `busy=true` is rejected: no user Turn and
no assistant Turn is appended, no remote request is issued, and the whole
state (transcript, busy flag, input fields) is unchanged.  In the code the
rejection is enforced by `ChatInput.tsx` disabling both send paths and the
Index button while `isProcessing`. -/
theorem busy_rejects_intents (st : SysState) (o : QueryOutcome)
    (oi : IndexOutcome) (t1 t2 t3 : Nat) (h : st.app.isProcessing = true) :
    submitQuestion st o t1 t2 = (st, []) ∧ requestIndexing st oi t3 = (st, []) := by
  constructor <;> simp [submitQuestion, requestIndexing, h]

theorem busy_rejects_intents_witness :
    submitQuestion busyState (.success "a" []) 1 2 = (busyState, []) ∧
    requestIndexing busyState .success 3 = (busyState, []) :=
  busy_rejects_intents busyState (.success "a" []) .success 1 2 3 (by decide)

/-- Auxiliary: a string with non-empty trim is non-empty. -/
theorem ne_empty_of_trim_ne_empty (s : String) (h : jsTrim s ≠ "") : s ≠ "" :=
  fun he => h (by rw [he]; rfl)

/-- C2: for an accepted operation, `busy` goes `false → true → false`:
it is `true` in the in-flight state produced by the start phase (which is
also the phase issuing the remote request) and `false` after the operation
resolves, on the success and the failure path alike (the `finally`
block).  The `submitQuestion` half holds from any state `st` accepting a
question; the `requestIndexing` half from any state `su` accepting an
indexing — in particular one whose question field is blank. -/
theorem busy_lifecycle (st su : SysState) (o : QueryOutcome) (oi : IndexOutcome)
    (t1 t2 t3 : Nat) (ha : askAccepted st) (hi : indexAccepted su) :
    (handleSendMessageStart st.app st.message st.repoUrl t1).1.isProcessing = true ∧
    (submitQuestion st o t1 t2).1.app.isProcessing = false ∧
    (handleIndexRepositoryStart su.app su.repoUrl).1.isProcessing = true ∧
    (requestIndexing su oi t3).1.app.isProcessing = false := by
  obtain ⟨hb, hm, hr⟩ := ha
  obtain ⟨hb2, hr2⟩ := hi
  have hr2' : su.repoUrl ≠ "" := ne_empty_of_trim_ne_empty _ hr2
  refine ⟨rfl, ?_, ?_, ?_⟩
  · cases o <;>
      simp [submitQuestion, hb, hm, hr, handleSendMessage,
        handleSendMessageStart, handleSendMessageFinish]
  · simp [handleIndexRepositoryStart, hr2']
  · cases oi <;>
      simp [requestIndexing, hb2, hr2, handleIndexRepository,
        handleIndexRepositoryStart, handleIndexRepositoryFinish, hr2']

theorem busy_lifecycle_witness :
    (handleSendMessageStart readyState.app readyState.message readyState.repoUrl 1).1.isProcessing = true ∧
    (submitQuestion readyState (.success "a" []) 1 2).1.app.isProcessing = false ∧
    (handleIndexRepositoryStart indexOnlyState.app indexOnlyState.repoUrl).1.isProcessing = true ∧
    (requestIndexing indexOnlyState .success 3).1.app.isProcessing = false :=
  busy_lifecycle readyState indexOnlyState (.success "a" []) .success 1 2 3
    (by decide) (by decide)

/-- C3: an accepted `submitQuestion` whose query succeeds first appends a
user Turn carrying the question (already present in the in-flight state,
i.e. before the remote call), issues exactly the request
`{question, repo_url, top_k: 3}`, and finally has appended exactly one
assistant Turn whose content is the returned answer and whose chunks are
the returned chunk sequence. -/
theorem submitQuestion_success_effects (st : SysState) (answer : String)
    (chunks : List Chunk) (t1 t2 : Nat) (h : askAccepted st) :
    (handleSendMessageStart st.app st.message st.repoUrl t1).1.messages =
      st.app.messages ++
        [{ id := toString t1, content := st.message, sender := .user,
           timestamp := t1, chunks := none }] ∧
    (submitQuestion st (.success answer chunks) t1 t2).2 =
      [RemoteRequest.query st.message st.repoUrl 3] ∧
    (submitQuestion st (.success answer chunks) t1 t2).1.app.messages =
      st.app.messages ++
        [{ id := toString t1, content := st.message, sender := .user,
           timestamp := t1, chunks := none },
         { id := toString t2, content := answer, sender := .bot,
           timestamp := t2, chunks := some chunks }] := by
  obtain ⟨hb, hm, hr⟩ := h
  refine ⟨rfl, ?_, ?_⟩ <;>
    simp [submitQuestion, hb, hm, hr, handleSendMessage,
      handleSendMessageStart, handleSendMessageFinish, addMessage]

theorem submitQuestion_success_effects_witness :
    (handleSendMessageStart readyState.app readyState.message readyState.repoUrl 1).1.messages =
      readyState.app.messages ++
        [{ id := toString 1, content := readyState.message, sender := .user,
           timestamp := 1, chunks := none }] ∧
    (submitQuestion readyState (.success "It starts the app."
        [{ text := "func main(){}", file_path := "main.go" }]) 1 2).2 =
      [RemoteRequest.query readyState.message readyState.repoUrl 3] ∧
    (submitQuestion readyState (.success "It starts the app."
        [{ text := "func main(){}", file_path := "main.go" }]) 1 2).1.app.messages =
      readyState.app.messages ++
        [{ id := toString 1, content := readyState.message, sender := .user,
           timestamp := 1, chunks := none },
         { id := toString 2, content := "It starts the app.", sender := .bot,
           timestamp := 2, chunks := some [{ text := "func main(){}", file_path := "main.go" }] }] :=
  submitQuestion_success_effects readyState "It starts the app."
    [{ text := "func main(){}", file_path := "main.go" }] 1 2 (by decide)

/-- C4: an accepted `submitQuestion` whose query fails appends, after the
already-appended user Turn, exactly one assistant Turn carrying the fixed
fallback content and no chunks, and resets `busy`; the operation is a
total function of the outcome (the `catch` swallows the error), so it
always settles normally. -/
theorem submitQuestion_failure_effects (st : SysState) (t1 t2 : Nat)
    (h : askAccepted st) :
    (submitQuestion st .failure t1 t2).1.app.messages =
      st.app.messages ++
        [{ id := toString t1, content := st.message, sender := .user,
           timestamp := t1, chunks := none },
         { id := toString t2, content := queryFailureContent, sender := .bot,
           timestamp := t2, chunks := none }] ∧
    (submitQuestion st .failure t1 t2).1.app.isProcessing = false ∧
    queryFailureContent = "Sorry, I encountered an error processing your request." := by
  obtain ⟨hb, hm, hr⟩ := h
  refine ⟨?_, ?_, rfl⟩ <;>
    simp [submitQuestion, hb, hm, hr, handleSendMessage,
      handleSendMessageStart, handleSendMessageFinish, addMessage]

theorem submitQuestion_failure_effects_witness :
    (submitQuestion readyState .failure 1 2).1.app.messages =
      readyState.app.messages ++
        [{ id := toString 1, content := readyState.message, sender := .user,
           timestamp := 1, chunks := none },
         { id := toString 2, content := queryFailureContent, sender := .bot,
           timestamp := 2, chunks := none }] ∧
    (submitQuestion readyState .failure 1 2).1.app.isProcessing = false ∧
    queryFailureContent = "Sorry, I encountered an error processing your request." :=
  submitQuestion_failure_effects readyState 1 2 (by decide)

/-- C5: an accepted `requestIndexing` appends exactly one assistant Turn
and no user Turn: on success its content confirms indexing of the URL
(the URL is interpolated), on failure its content is the fixed failure
message; neither Turn carries chunks. -/
theorem requestIndexing_turn_effects (st : SysState) (t : Nat)
    (h : indexAccepted st) :
    (requestIndexing st .success t).1.app.messages =
      st.app.messages ++
        [{ id := toString t, content := indexSuccessContent st.repoUrl,
           sender := .bot, timestamp := t, chunks := none }] ∧
    (requestIndexing st .failure t).1.app.messages =
      st.app.messages ++
        [{ id := toString t, content := indexFailureContent,
           sender := .bot, timestamp := t, chunks := none }] ∧
    indexSuccessContent st.repoUrl = "Successfully indexed repository: " ++ st.repoUrl ∧
    indexFailureContent = "Failed to index repository. Please check the URL and try again." := by
  obtain ⟨hb, hr⟩ := h
  have hr' : st.repoUrl ≠ "" := ne_empty_of_trim_ne_empty _ hr
  refine ⟨?_, ?_, rfl, rfl⟩ <;>
    simp [requestIndexing, hb, hr, handleIndexRepository,
      handleIndexRepositoryStart, handleIndexRepositoryFinish, addMessage, hr']

theorem requestIndexing_turn_effects_witness :
    (requestIndexing readyState .success 7).1.app.messages =
      readyState.app.messages ++
        [{ id := toString 7, content := indexSuccessContent readyState.repoUrl,
           sender := .bot, timestamp := 7, chunks := none }] ∧
    (requestIndexing readyState .failure 7).1.app.messages =
      readyState.app.messages ++
        [{ id := toString 7, content := indexFailureContent,
           sender := .bot, timestamp := 7, chunks := none }] ∧
    indexSuccessContent readyState.repoUrl = "Successfully indexed repository: " ++ readyState.repoUrl ∧
    indexFailureContent = "Failed to index repository. Please check the URL and try again." :=
  requestIndexing_turn_effects readyState 7 (by decide)

/-- C6: a question or URL that is empty after trimming makes the intent a
no-op: the whole state is unchanged and no remote request is issued. -/
theorem empty_input_noop (st : SysState) (o : QueryOutcome)
    (oi : IndexOutcome) (t1 t2 t3 : Nat) :
    (jsTrim st.message = "" ∨ jsTrim st.repoUrl = "" →
      submitQuestion st o t1 t2 = (st, [])) ∧
    (jsTrim st.repoUrl = "" → requestIndexing st oi t3 = (st, [])) := by
  constructor
  · intro h
    unfold submitQuestion
    split
    · rfl
    · rw [if_neg]
      rintro ⟨hm, hr⟩
      rcases h with h | h
      · exact hm h
      · exact hr h
  · intro h
    unfold requestIndexing
    split
    · rfl
    · rw [if_neg]
      exact fun hr => hr h

theorem empty_input_noop_witness :
    submitQuestion blankState (.success "a" []) 1 2 = (blankState, []) ∧
    requestIndexing blankState .success 3 = (blankState, []) :=
  ⟨(empty_input_noop blankState (.success "a" []) .success 1 2 3).1 (Or.inl (by decide)),
   (empty_input_noop blankState (.success "a" []) .success 1 2 3).2 (by decide)⟩

/-- C8: the repository URL associated with the conversation is the
`repoUrl` field retained by the input component; an accepted intent is
issued with exactly that URL (visible in the emitted request), and neither
handler changes the field afterwards (`handleSendMessage` clears only the
question field), so after the intent resolves the associated URL is still
the one the intent supplied. -/
theorem activeRepository_tracks_intent (st su : SysState) (o : QueryOutcome)
    (oi : IndexOutcome) (t1 t2 t3 : Nat) (ha : askAccepted st)
    (hi : indexAccepted su) :
    (submitQuestion st o t1 t2).1.repoUrl = st.repoUrl ∧
    (submitQuestion st o t1 t2).2 = [RemoteRequest.query st.message st.repoUrl 3] ∧
    (requestIndexing su oi t3).1.repoUrl = su.repoUrl ∧
    (requestIndexing su oi t3).2 = [RemoteRequest.index su.repoUrl] := by
  obtain ⟨hb, hm, hr⟩ := ha
  obtain ⟨hb2, hr2⟩ := hi
  have hr2' : su.repoUrl ≠ "" := ne_empty_of_trim_ne_empty _ hr2
  refine ⟨?_, ?_, ?_, ?_⟩ <;>
    simp [submitQuestion, requestIndexing, hb, hm, hr, hb2, hr2,
      handleSendMessage, handleSendMessageStart, handleIndexRepository,
      handleIndexRepositoryStart, hr2']

theorem activeRepository_tracks_intent_witness :
    (submitQuestion readyState (.success "a" []) 1 2).1.repoUrl = readyState.repoUrl ∧
    (submitQuestion readyState (.success "a" []) 1 2).2 =
      [RemoteRequest.query readyState.message readyState.repoUrl 3] ∧
    (requestIndexing indexOnlyState .success 3).1.repoUrl = indexOnlyState.repoUrl ∧
    (requestIndexing indexOnlyState .success 3).2 =
      [RemoteRequest.index indexOnlyState.repoUrl] :=
  activeRepository_tracks_intent readyState indexOnlyState (.success "a" []) .success 1 2 3
    (by decide) (by decide)

/-- C10: the validation tests the trimmed strings, but the values handed
on are the untrimmed originals: the appended user Turn's content and the
`question` field of the emitted query request are the question exactly as
supplied (`onSendMessage(message, repoUrl)` passes the raw field
values). -/
theorem question_preserved_verbatim (st : SysState) (o : QueryOutcome)
    (t1 t2 : Nat) (h : askAccepted st) :
    (handleSendMessageStart st.app st.message st.repoUrl t1).1.messages =
      st.app.messages ++
        [{ id := toString t1, content := st.message, sender := .user,
           timestamp := t1, chunks := none }] ∧
    (submitQuestion st o t1 t2).2 =
      [RemoteRequest.query st.message st.repoUrl 3] := by
  obtain ⟨hb, hm, hr⟩ := h
  refine ⟨rfl, ?_⟩
  simp [submitQuestion, hb, hm, hr, handleSendMessage, handleSendMessageStart]

theorem question_preserved_verbatim_witness :
    (handleSendMessageStart readyState.app readyState.message readyState.repoUrl 1).1.messages =
      readyState.app.messages ++
        [{ id := toString 1, content := " What does main do? ", sender := .user,
           timestamp := 1, chunks := none }] ∧
    (submitQuestion readyState .failure 1 2).2 =
      [RemoteRequest.query " What does main do? " "https://github.com/x/y" 3] :=
  question_preserved_verbatim readyState .failure 1 2 (by decide)

/-- A `submitQuestion` whose acceptance condition fails leaves the state
unchanged and issues nothing. -/
theorem submitQuestion_not_accepted (st : SysState) (o : QueryOutcome)
    (t1 t2 : Nat) (h : ¬ askAccepted st) :
    submitQuestion st o t1 t2 = (st, []) := by
  unfold submitQuestion
  split
  · rfl
  · rename_i hb
    rw [if_neg]
    simp only [Bool.not_eq_true] at hb
    exact fun hc => h ⟨hb, hc.1, hc.2⟩

/-- A `requestIndexing` whose acceptance condition fails leaves the state
unchanged and issues nothing. -/
theorem requestIndexing_not_accepted (st : SysState) (oi : IndexOutcome)
    (t : Nat) (h : ¬ indexAccepted st) :
    requestIndexing st oi t = (st, []) := by
  unfold requestIndexing
  split
  · rfl
  · rename_i hb
    rw [if_neg]
    simp only [Bool.not_eq_true] at hb
    exact fun hc => h ⟨hb, hc⟩

/-- Each event extends the transcript by a batch of freshly created Turns:
the old transcript is kept unchanged in front, the batch's size is the
event's weight, and the batch's ids come from the clock values the event
read. -/
theorem stepIntent_messages (st : SysState) (i : Intent) :
    ∃ L : List Message,
      (stepIntent st i).app.messages = st.app.messages ++ L ∧
      L.length = intentWeight st i ∧
      (L.map Message.id).Sublist (i.times.map (fun t => toString t)) := by
  cases i with
  | ask o t1 t2 =>
    by_cases h : askAccepted st
    · obtain ⟨hb, hm, hr⟩ := h
      cases o with
      | success answer chunks =>
        refine ⟨[{ id := toString t1, content := st.message, sender := .user,
                   timestamp := t1, chunks := none },
                 { id := toString t2, content := answer, sender := .bot,
                   timestamp := t2, chunks := some chunks }], ?_, ?_, ?_⟩
        · simp [stepIntent, submitQuestion, hb, hm, hr, handleSendMessage,
            handleSendMessageStart, handleSendMessageFinish, addMessage]
        · have hacc : askAccepted st := ⟨hb, hm, hr⟩
          simp only [intentWeight]
          rw [if_pos hacc]
          rfl
        · simp [Intent.times]
      | failure =>
        refine ⟨[{ id := toString t1, content := st.message, sender := .user,
                   timestamp := t1, chunks := none },
                 { id := toString t2, content := queryFailureContent, sender := .bot,
                   timestamp := t2, chunks := none }], ?_, ?_, ?_⟩
        · simp [stepIntent, submitQuestion, hb, hm, hr, handleSendMessage,
            handleSendMessageStart, handleSendMessageFinish, addMessage]
        · have hacc : askAccepted st := ⟨hb, hm, hr⟩
          simp only [intentWeight]
          rw [if_pos hacc]
          rfl
        · simp [Intent.times]
    · refine ⟨[], ?_, ?_, ?_⟩
      · simp [stepIntent, submitQuestion_not_accepted st o t1 t2 h]
      · simp [intentWeight, if_neg h]
      · exact List.nil_sublist _
  | index oi t =>
    by_cases h : indexAccepted st
    · obtain ⟨hb, hr⟩ := h
      have hr' : st.repoUrl ≠ "" := ne_empty_of_trim_ne_empty _ hr
      cases oi with
      | success =>
        refine ⟨[{ id := toString t, content := indexSuccessContent st.repoUrl,
                   sender := .bot, timestamp := t, chunks := none }], ?_, ?_, ?_⟩
        · simp [stepIntent, requestIndexing, hb, hr, handleIndexRepository,
            handleIndexRepositoryStart, handleIndexRepositoryFinish, addMessage, hr']
        · have hacc : indexAccepted st := ⟨hb, hr⟩
          simp only [intentWeight]
          rw [if_pos hacc]
          rfl
        · simp [Intent.times]
      | failure =>
        refine ⟨[{ id := toString t, content := indexFailureContent,
                   sender := .bot, timestamp := t, chunks := none }], ?_, ?_, ?_⟩
        · simp [stepIntent, requestIndexing, hb, hr, handleIndexRepository,
            handleIndexRepositoryStart, handleIndexRepositoryFinish, addMessage, hr']
        · have hacc : indexAccepted st := ⟨hb, hr⟩
          simp only [intentWeight]
          rw [if_pos hacc]
          rfl
        · simp [Intent.times]
    · refine ⟨[], ?_, ?_, ?_⟩
      · simp [stepIntent, requestIndexing_not_accepted st oi t h]
      · simp [intentWeight, if_neg h]
      · exact List.nil_sublist _
  | typeMsg s =>
    refine ⟨[], ?_, rfl, List.nil_sublist _⟩
    simp only [stepIntent, typeMessage]
    split
    · simp
    · split <;> simp
  | typeUrl s =>
    refine ⟨[], ?_, rfl, List.nil_sublist _⟩
    simp only [stepIntent, typeRepoUrl]
    split <;> simp

/-- A run only appends: the old transcript stays in front and exactly
`runWeight` Turns are added. -/
theorem run_messages (st : SysState) (is : List Intent) :
    ∃ L : List Message, (run st is).app.messages = st.app.messages ++ L ∧
      L.length = runWeight st is := by
  induction is generalizing st with
  | nil => exact ⟨[], (List.append_nil _).symm, rfl⟩
  | cons i is ih =>
    obtain ⟨L1, h1, hl1, _⟩ := stepIntent_messages st i
    obtain ⟨L2, h2, hl2⟩ := ih (stepIntent st i)
    refine ⟨L1 ++ L2, ?_, ?_⟩
    · show (run (stepIntent st i) is).app.messages = _
      rw [h2, h1, List.append_assoc]
    · show (L1 ++ L2).length = intentWeight st i + runWeight (stepIntent st i) is
      rw [List.length_append, hl1, hl2]

/-- C7: over every sequence of events the transcript is append-only — the
initial transcript is a prefix of the final one (so appended Turns are
never modified, removed or reordered and the length never decreases) —
and the number of Turns added is exactly 2 per accepted `submitQuestion`
plus 1 per accepted `requestIndexing` (the weights defining
`runWeight`). -/
theorem transcript_append_only (st : SysState) (is : List Intent) :
    st.app.messages <+: (run st is).app.messages ∧
    (run st is).app.messages.length = st.app.messages.length + runWeight st is := by
  obtain ⟨L, hL, hlen⟩ := run_messages st is
  exact ⟨⟨L, hL.symm⟩, by rw [hL, List.length_append, hlen]⟩

/-- C9 counterexample: the transcript of `sameTickFinal` holds two
distinct Turns (a user Turn and an assistant Turn) that share the id
`"5"`, because `Date.now().toString()` repeats within a millisecond; so
Turn ids are not unique. -/
theorem turn_id_clash :
    sameTickFinal.app.messages.map Message.sender = [Sender.user, Sender.bot] ∧
    sameTickFinal.app.messages.map Message.id = ["5", "5"] ∧
    List.Pairwise (fun a b : Message => a ≠ b) sameTickFinal.app.messages ∧
    ¬ List.Pairwise (fun a b : Message => a.id ≠ b.id) sameTickFinal.app.messages := by
  refine ⟨?_, ?_, ?_, ?_⟩ <;> decide

theorem digitVal_digitChar (d : Nat) (h : d < 10) :
    digitVal (Nat.digitChar d) = d := by
  interval_cases d <;> rfl

theorem toDigitsCore_succ (b f n : Nat) (l : List Char) :
    Nat.toDigitsCore b (f + 1) n l =
      if n / b = 0 then Nat.digitChar (n % b) :: l
      else Nat.toDigitsCore b f (n / b) (Nat.digitChar (n % b) :: l) := rfl

/-- The accumulator of `Nat.toDigitsCore` is just appended behind the
produced digits. -/
theorem toDigitsCore_acc (b : Nat) :
    ∀ (f n : Nat) (l : List Char),
      Nat.toDigitsCore b f n l = Nat.toDigitsCore b f n [] ++ l := by
  intro f
  induction f with
  | zero => intro n l; rfl
  | succ f ih =>
    intro n l
    rw [toDigitsCore_succ, toDigitsCore_succ]
    by_cases h : n / b = 0
    · rw [if_pos h, if_pos h]
      rfl
    · rw [if_neg h, if_neg h, ih (n / b) (Nat.digitChar (n % b) :: l),
        ih (n / b) [Nat.digitChar (n % b)], List.append_assoc]
      rfl

/-- Round trip: decoding the decimal digits of `n` yields `n` (given
enough fuel). -/
theorem decVal_toDigitsCore :
    ∀ (f n : Nat), n < f → decVal (Nat.toDigitsCore 10 f n []) = n := by
  intro f
  induction f with
  | zero => intro n hn; exact absurd hn (Nat.not_lt_zero n)
  | succ f ih =>
    intro n hn
    rw [toDigitsCore_succ]
    by_cases h : n / 10 = 0
    · rw [if_pos h]
      have hn10 : n < 10 := by omega
      show 10 * 0 + digitVal (Nat.digitChar (n % 10)) = n
      rw [digitVal_digitChar (n % 10) (Nat.mod_lt _ (by norm_num)),
        Nat.mod_eq_of_lt hn10]
      omega
    · rw [if_neg h, toDigitsCore_acc]
      have hpos : 0 < n := by
        rcases Nat.eq_zero_or_pos n with h0 | h0
        · exact absurd (by rw [h0]) h
        · exact h0
      have hdiv : n / 10 < f :=
        lt_of_lt_of_le (Nat.div_lt_self hpos (by norm_num)) (Nat.lt_succ_iff.mp hn)
      show decVal (Nat.toDigitsCore 10 f (n / 10) [] ++ [Nat.digitChar (n % 10)]) = n
      unfold decVal
      rw [List.foldl_append]
      show 10 * decVal (Nat.toDigitsCore 10 f (n / 10) []) +
          digitVal (Nat.digitChar (n % 10)) = n
      rw [ih (n / 10) hdiv, digitVal_digitChar (n % 10) (Nat.mod_lt _ (by norm_num))]
      exact Nat.div_add_mod n 10

/-- Function `Nat.repr` (hence `Date.now().toString()`) is injective: distinct
clock values give distinct id strings. -/
theorem natRepr_inj (m n : Nat) (h : Nat.repr m = Nat.repr n) : m = n := by
  have hd : Nat.toDigitsCore 10 (m + 1) m [] = Nat.toDigitsCore 10 (n + 1) n [] :=
    congrArg String.data h
  calc m = decVal (Nat.toDigitsCore 10 (m + 1) m []) :=
        (decVal_toDigitsCore _ _ (Nat.lt_succ_self m)).symm
    _ = decVal (Nat.toDigitsCore 10 (n + 1) n []) := congrArg decVal hd
    _ = n := decVal_toDigitsCore _ _ (Nat.lt_succ_self n)

theorem natToString_inj (m n : Nat) (h : (toString m : String) = toString n) :
    m = n := natRepr_inj m n h

/-- Ids stay pairwise distinct along a run whose clock readings are fresh
and pairwise distinct. -/
theorem run_ids_distinct (is : List Intent) :
    ∀ st : SysState,
      (st.app.messages.map Message.id).Pairwise (· ≠ ·) →
      (∀ s ∈ st.app.messages.map Message.id, ∀ t ∈ runTimes is, s ≠ toString t) →
      (runTimes is).Pairwise (· ≠ ·) →
      ((run st is).app.messages.map Message.id).Pairwise (· ≠ ·) := by
  induction is with
  | nil =>
    intro st h1 _ _
    exact h1
  | cons i is ih =>
    intro st h1 h2 h3
    simp only [runTimes] at h3
    rw [List.pairwise_append] at h3
    obtain ⟨hpt, hps, hcross⟩ := h3
    obtain ⟨L, hL, _, hsub⟩ := stepIntent_messages st i
    show ((run (stepIntent st i) is).app.messages.map Message.id).Pairwise (· ≠ ·)
    apply ih
    · rw [hL, List.map_append, List.pairwise_append]
      refine ⟨h1, ?_, ?_⟩
      · exact List.Pairwise.sublist hsub
          (List.Pairwise.map _ (fun a b hab he => hab (natToString_inj a b he)) hpt)
      · intro a ha b hb
        obtain ⟨t, ht, rfl⟩ := List.mem_map.mp (hsub.subset hb)
        exact h2 a ha t (by
          simp only [runTimes]
          exact List.mem_append_left _ ht)
    · intro s hs t ht
      rw [hL, List.map_append] at hs
      rcases List.mem_append.mp hs with hs | hs
      · exact h2 s hs t (by
          simp only [runTimes]
          exact List.mem_append_right _ ht)
      · obtain ⟨u, hu, rfl⟩ := List.mem_map.mp (hsub.subset hs)
        intro he
        exact hcross u hu t ht (natToString_inj u t he)
    · exact hps

/-- C9 amended: a Turn's id is `Date.now().toString()` at its creation, so
ids are unique whenever the clock values read during the run are pairwise
distinct; unconditional uniqueness fails for Turns created within the same
millisecond (`turn_id_clash`). -/
theorem turn_ids_unique_of_distinct_times (is : List Intent)
    (h : (runTimes is).Pairwise (· ≠ ·)) :
    ((run initState is).app.messages.map Message.id).Pairwise (· ≠ ·) := by
  apply run_ids_distinct is initState
  · simp [initState]
  · simp [initState]
  · exact h

theorem turn_ids_unique_of_distinct_times_witness :
    ((run initState
        [Intent.typeUrl "https://github.com/x/y", Intent.typeMsg "q",
         Intent.ask (.success "It starts the app." []) 1 2,
         Intent.index .success 3]).app.messages.map Message.id).Pairwise (· ≠ ·) :=
  turn_ids_unique_of_distinct_times _ (by decide)
